import Mathlib

/-!
Verification of the claim orchestration and transaction-construction engine
of a testnet faucet service.

The definitions below are a shallow embedding of the Rust sources:
* `src/main.rs` — `claim_handler` and `submit_faucet_transaction`
  (UTXO selection loop, fee model, change/dust handling, HTTP status mapping);
* `src/rate_limiter.rs` — `RateLimiter::try_claim`.

Machine integers (`u64`) are modelled as `Nat`; the places where the Rust
code performs `saturating_add` are modelled by `satAdd`, and the one place
where it performs an unchecked `u64` addition (the `need` value printed in
the insufficient-funds error message) is modelled modulo `2^64`.
-/

namespace Faucet

/-- 2^64, the modulus of Rust `u64` arithmetic. -/
def U64MOD : Nat := 18446744073709551616

/-- `u64::MAX` = 2^64 - 1. -/
def U64MAX : Nat := 18446744073709551615

/-- Rust `u64::saturating_add`: addition clamped at `u64::MAX`. -/
def satAdd (a b : Nat) : Nat := min (a + b) U64MAX

/-- `FEE_PER_INPUT_SOMPI` constant from `submit_faucet_transaction` (main.rs). -/
def FEE_PER_INPUT_SOMPI : Nat := 2000

/-- `DUST_SOMPI` constant from `submit_faucet_transaction` (main.rs). -/
def DUST_SOMPI : Nat := 1000

/-- The fee model of `submit_faucet_transaction` (main.rs lines 241 and 247):
`(selected.len() as u64 + 1) * FEE_PER_INPUT_SOMPI`. -/
def fee (n : Nat) : Nat := (n + 1) * FEE_PER_INPUT_SOMPI

/-- An unspent output as the selector sees it: a stable outpoint identifier
and a `u64` amount (the `entry.utxo_entry.amount` field read by main.rs). -/
structure Utxo where
  outpoint : Nat
  amount : Nat
deriving DecidableEq, Repr

/-- Exact (unbounded) sum of the amounts of a list of UTXOs. -/
def sumAmounts (l : List Utxo) : Nat := (l.map Utxo.amount).sum

/-- The error taxonomy of the spend path.  `noUtxos` is the dedicated
`"Faucet has no UTXOs"` bail-out of main.rs line 227; `insufficientFunds`
carries the `have`/`need` sompi values of the bail-out at main.rs line 249;
signing / submission / node failures are the remaining `anyhow` errors. -/
inductive FaucetError where
  | noUtxos : FaucetError
  | insufficientFunds (haveSompi needSompi : Nat) : FaucetError
  | signingFailure : FaucetError
  | submissionFailure : FaucetError
  | nodeUnavailable : FaucetError
deriving DecidableEq, Repr

instance {ε α : Type} [DecidableEq ε] [DecidableEq α] : DecidableEq (Except ε α) := fun a b =>
  match a, b with
  | .error e1, .error e2 =>
      if h : e1 = e2 then .isTrue (by rw [h]) else .isFalse (fun hc => h (Except.error.inj hc))
  | .ok a1, .ok a2 =>
      if h : a1 = a2 then .isTrue (by rw [h]) else .isFalse (fun hc => h (Except.ok.inj hc))
  | .error _, .ok _ => .isFalse (fun hc => Except.noConfusion hc)
  | .ok _, .error _ => .isFalse (fun hc => Except.noConfusion hc)

/-- The result of a successful selection: the chosen inputs, the accumulated
(saturating) input total, and the final fee. -/
structure Selection where
  selected : List Utxo
  totalIn : Nat
  feeSompi : Nat
deriving DecidableEq, Repr

/-- Folding the selector's running total: `total_in = total_in.saturating_add(value)`
for each value in the list, in order (main.rs line 239). -/
def satFold (tot : Nat) : List Utxo → Nat
  | [] => tot
  | e :: rest => satFold (satAdd tot e.amount) rest

/-- The selection loop of `submit_faucet_transaction` (main.rs lines 236-245):
walk `utxos` in the order received, push each entry into the selection,
accumulate `total_in` with `saturating_add`, recompute
`fee = (selected.len() + 1) * FEE_PER_INPUT_SOMPI`, and break as soon as
`total_in >= amount.saturating_add(fee)`.  Returns the selection and the
accumulated total. -/
def selectLoop (amount : Nat) : List Utxo → List Utxo → Nat → List Utxo × Nat
  | [], sel, tot => (sel, tot)
  | e :: rest, sel, tot =>
      if satAdd amount (fee (sel ++ [e]).length) ≤ satAdd tot e.amount then
        (sel ++ [e], satAdd tot e.amount)
      else
        selectLoop amount rest (sel ++ [e]) (satAdd tot e.amount)

/-- The selection phase of `submit_faucet_transaction` (main.rs lines 226-253):
an empty UTXO set bails out with the dedicated no-UTXOs error *before* the
selection loop; otherwise the loop runs, and if the accumulated total is
still below `amount.saturating_add(fee)` the function bails with
`InsufficientFunds`, whose reported `need` is the *unchecked* `u64` sum
`amount + fee` (hence taken modulo 2^64 here). -/
def selectPhase (utxos : List Utxo) (amount : Nat) : Except FaucetError Selection :=
  if utxos.isEmpty then .error .noUtxos
  else
    if (selectLoop amount utxos [] 0).2 <
        satAdd amount (fee (selectLoop amount utxos [] 0).1.length) then
      .error (.insufficientFunds (selectLoop amount utxos [] 0).2
        ((amount + fee (selectLoop amount utxos [] 0).1.length) % U64MOD))
    else
      .ok ⟨(selectLoop amount utxos [] 0).1, (selectLoop amount utxos [] 0).2,
           fee (selectLoop amount utxos [] 0).1.length⟩

/-- A transaction skeleton as assembled by main.rs: the list of input
outpoints (selection order) and the list of outputs, each an
`(amount, address)` pair, where the address stands for the
`pay_to_address_script` of that address. -/
structure Tx where
  inputs : List Nat
  outputs : List (Nat × Nat)
deriving DecidableEq, Repr

/-- The dust-folding of main.rs lines 255-258: `change = total_in - amount - fee`,
then `if change > 0 && change < DUST_SOMPI { change = 0 }`. -/
def changeAmount (totalIn amount feeSompi : Nat) : Nat :=
  if 0 < totalIn - amount - feeSompi ∧ totalIn - amount - feeSompi < DUST_SOMPI then 0
  else totalIn - amount - feeSompi

/-- The assembly step of `submit_faucet_transaction` (main.rs lines 255-273):
the destination output of `amount` is pushed first, and a change output of
`changeAmount` back to the faucet address is pushed second only if that
(post-dust-folding) change is positive. -/
def assemble (sel : Selection) (amount destAddr faucetAddr : Nat) : Tx :=
  { inputs := sel.selected.map Utxo.outpoint
  , outputs :=
      (amount, destAddr) ::
        (if 0 < changeAmount sel.totalIn amount sel.feeSompi then
          [(changeAmount sel.totalIn amount sel.feeSompi, faucetAddr)]
        else []) }

/-- `submit_faucet_transaction` up to the external signing/submission
boundary: select, then assemble.  Signing and network submission are
external collaborators; their failures are injected at the call site
(`claimHandler`) as `FaucetError` values. -/
def submitFaucetTransaction (utxos : List Utxo) (amount destAddr faucetAddr : Nat) :
    Except FaucetError Tx :=
  (selectPhase utxos amount).map (fun sel => assemble sel amount destAddr faucetAddr)

/-- The rate limiter state of `rate_limiter.rs`: the `HashMap<String, Instant>`
is modelled as an association list (the most recent insertion shadows older
entries), timestamps as `Nat` seconds. -/
structure RateLimiter where
  claims : List (String × Nat)
  interval : Nat

/-- Observer for the recorded last-claim timestamp of an identity. -/
def RateLimiter.lastClaim (rl : RateLimiter) (ip : String) : Option Nat :=
  rl.claims.lookup ip

/-- `RateLimiter::try_claim` (rate_limiter.rs lines 18-27): under one
critical section, if an entry exists for `ip` and `now - last < interval`,
return `false` without mutating the map; otherwise insert `(ip, now)` and
return `true`.  (`last.elapsed()` is `now - last` on the monotonic clock.) -/
def RateLimiter.tryClaim (rl : RateLimiter) (ip : String) (now : Nat) : Bool × RateLimiter :=
  match rl.claims.lookup ip with
  | some last =>
      if now - last < rl.interval then (false, rl)
      else (true, ⟨(ip, now) :: rl.claims, rl.interval⟩)
  | none => (true, ⟨(ip, now) :: rl.claims, rl.interval⟩)

/-- Outcome of one claim request, as produced by `claim_handler` (main.rs):
either an HTTP error status or the success payload
`{ transaction_id, amount_kas, next_claim_seconds }`. -/
inductive ClaimOutcome where
  | badRequest : ClaimOutcome
  | tooManyRequests : ClaimOutcome
  | internalError : ClaimOutcome
  | accepted (txId amountKas nextClaimSeconds : Nat) : ClaimOutcome
deriving DecidableEq, Repr

/-- The HTTP status code carried by each outcome
(`StatusCode::BAD_REQUEST`, `TOO_MANY_REQUESTS`, `INTERNAL_SERVER_ERROR`,
and `200 OK` for the JSON success response). -/
def httpStatus : ClaimOutcome → Nat
  | .badRequest => 400
  | .tooManyRequests => 429
  | .internalError => 500
  | .accepted _ _ _ => 200

/-- `claim_handler` (main.rs lines 175-212).  `parsedAddr` is the result of
parsing the destination address string (`none` = parse failure);
`spendResult` is the outcome of the whole `submit_faucet_transaction` call
(selection, assembly, signing, submission — any of which may fail).  The
returned triple is (outcome, rate-limiter state after the call, whether the
wallet spend path was invoked at all). -/
def claimHandler (parsedAddr : Option Nat) (rl : RateLimiter) (ip : String) (now : Nat)
    (spendResult : Except FaucetError Nat) (amountPerClaim intervalSeconds : Nat) :
    ClaimOutcome × RateLimiter × Bool :=
  match parsedAddr with
  | none => (.badRequest, rl, false)
  | some _ =>
      if (rl.tryClaim ip now).1 = false then
        (.tooManyRequests, (rl.tryClaim ip now).2, false)
      else
        match spendResult with
        | .error _ => (.internalError, (rl.tryClaim ip now).2, true)
        | .ok txId => (.accepted txId amountPerClaim intervalSeconds, (rl.tryClaim ip now).2, true)

/-- The no-lock interleaving of two concurrent claims in main.rs.
`claim_handler` invokes `submit_faucet_transaction` with no exclusive
section of any kind (`AppState` shares only the `Arc<RateLimiter>`), and
`submit_faucet_transaction` awaits the UTXO fetch and the submission as
separate suspension points, so the schedule in which *both* handlers
complete `get_utxos_by_addresses` before either submits is reachable.  In
that schedule both selections run on the same node view (the node's view
does not reflect unconfirmed submissions), yielding this pair of results. -/
def unlockedBothFetchFirst (view : List Utxo) (amount dest1 dest2 faucetAddr : Nat) :
    Except FaucetError Tx × Except FaucetError Tx :=
  (submitFaucetTransaction view amount dest1 faucetAddr,
   submitFaucetTransaction view amount dest2 faucetAddr)

/-- Two transactions have disjoint input sets: no outpoint is consumed by both. -/
def Tx.inputsDisjoint (t1 t2 : Tx) : Prop := ∀ o ∈ t1.inputs, o ∉ t2.inputs

instance (t1 t2 : Tx) : Decidable (t1.inputsDisjoint t2) :=
  inferInstanceAs (Decidable (∀ o ∈ t1.inputs, o ∉ t2.inputs))

/-! ### Helper lemmas about the selection loop -/

theorem satAdd_le_max (a b : Nat) : satAdd a b ≤ U64MAX :=
  min_le_right _ _

theorem sumAmounts_nil : sumAmounts [] = 0 := rfl

theorem sumAmounts_cons (e : Utxo) (l : List Utxo) :
    sumAmounts (e :: l) = e.amount + sumAmounts l := by
  simp [sumAmounts]

/-- The saturating running total equals the exact sum clamped at `u64::MAX`. -/
theorem satFold_eq (l : List Utxo) : ∀ tot, tot ≤ U64MAX →
    satFold tot l = min (tot + sumAmounts l) U64MAX := by
  induction l with
  | nil =>
      intro tot h
      simp only [satFold, sumAmounts_nil, Nat.add_zero]
      omega
  | cons e rest ih =>
      intro tot h
      rw [satFold, ih _ (satAdd_le_max _ _), sumAmounts_cons]
      simp only [satAdd]
      omega

/-- Specification of the selection loop: for some `j`, the loop extends the
selection by exactly the first `j` remaining entries, accumulates their
amounts saturatingly, and every strictly shorter nonempty extension failed
the break test. -/
theorem selectLoop_spec (amount : Nat) (l : List Utxo) : ∀ (sel : List Utxo) (tot : Nat),
    ∃ j, j ≤ l.length ∧ (l ≠ [] → 1 ≤ j) ∧
      selectLoop amount l sel tot = (sel ++ l.take j, satFold tot (l.take j)) ∧
      ∀ i, 1 ≤ i → i < j →
        satFold tot (l.take i) < satAdd amount (fee (sel.length + i)) := by
  induction l with
  | nil =>
      intro sel tot
      refine ⟨0, Nat.le_refl 0, fun hc => absurd rfl hc, ?_, ?_⟩
      · simp [selectLoop, satFold]
      · intro i h1 hi
        omega
  | cons e rest ih =>
      intro sel tot
      by_cases hbr : satAdd amount (fee (sel ++ [e]).length) ≤ satAdd tot e.amount
      · refine ⟨1, by simp, fun _ => Nat.le_refl 1, ?_, ?_⟩
        · rw [List.take_succ_cons, List.take_zero]
          show selectLoop amount (e :: rest) sel tot = _
          rw [selectLoop, if_pos hbr]
          simp [satFold]
        · intro i h1 hi
          omega
      · obtain ⟨j, hjle, hj1, heq, hconds⟩ := ih (sel ++ [e]) (satAdd tot e.amount)
        refine ⟨j + 1, by simp; omega, fun _ => Nat.succ_le_succ (Nat.zero_le j), ?_, ?_⟩
        · rw [List.take_succ_cons]
          show selectLoop amount (e :: rest) sel tot = _
          rw [selectLoop, if_neg hbr, heq]
          simp [satFold]
        · intro i h1 hi
          match i, h1 with
          | 1, _ =>
              have hlt := Nat.lt_of_not_le hbr
              simp only [List.length_append, List.length_cons, List.length_nil,
                Nat.zero_add] at hlt
              simpa [satFold] using hlt
          | (i' + 2), _ =>
              have hc := hconds (i' + 1) (by omega) (by omega)
              have harg : (sel ++ [e]).length + (i' + 1) = sel.length + (i' + 2) := by
                simp only [List.length_append, List.length_cons, List.length_nil]
                omega
              rw [harg] at hc
              simpa [List.take_succ_cons, satFold] using hc

/-- Inversion of the success branch of `selectPhase`. -/
theorem selectPhase_ok (utxos : List Utxo) (amount : Nat) (sel : Selection)
    (h : selectPhase utxos amount = .ok sel) :
    utxos ≠ [] ∧
    sel = ⟨(selectLoop amount utxos [] 0).1, (selectLoop amount utxos [] 0).2,
           fee (selectLoop amount utxos [] 0).1.length⟩ ∧
    satAdd amount (fee (selectLoop amount utxos [] 0).1.length) ≤
      (selectLoop amount utxos [] 0).2 := by
  unfold selectPhase at h
  split at h
  · exact absurd h (by simp)
  next hne =>
    split at h
    · exact absurd h (by simp)
    next hge =>
      refine ⟨?_, (Except.ok.inj h).symm, by omega⟩
      intro hc
      rw [hc] at hne
      simp at hne

/-- Removing the last element of a `j`-prefix gives the `(j-1)`-prefix. -/
theorem dropLast_take {α : Type} (j : Nat) (l : List α) (hj : j ≤ l.length) :
    (l.take j).dropLast = l.take (j - 1) := by
  rw [List.dropLast_eq_take, List.length_take, List.take_take]
  congr 1
  omega

/-- After an admitting `tryClaim`, the state is the old map with `(ip, now)`
prepended (shadowing any older entry for `ip`). -/
theorem tryClaim_true_state (rl : RateLimiter) (ip : String) (now : Nat)
    (h : (rl.tryClaim ip now).1 = true) :
    (rl.tryClaim ip now).2 = ⟨(ip, now) :: rl.claims, rl.interval⟩ := by
  unfold RateLimiter.tryClaim at h ⊢
  cases hl : rl.claims.lookup ip with
  | none => simp [hl]
  | some last =>
      simp only [hl] at h ⊢
      split at h
      · simp at h
      next hc => rw [if_neg hc]

/-- A recent entry makes `tryClaim` refuse without mutating the state. -/
theorem tryClaim_recent (rl : RateLimiter) (ip : String) (now last : Nat)
    (hl : rl.lastClaim ip = some last) (hlt : now - last < rl.interval) :
    rl.tryClaim ip now = (false, rl) := by
  unfold RateLimiter.tryClaim
  rw [show rl.claims.lookup ip = some last from hl]
  dsimp only
  rw [if_pos hlt]

/-- With no recent entry, `tryClaim` admits and records `now`. -/
theorem tryClaim_grant (rl : RateLimiter) (ip : String) (now : Nat)
    (hfor : ∀ last, rl.lastClaim ip = some last → rl.interval ≤ now - last) :
    rl.tryClaim ip now = (true, ⟨(ip, now) :: rl.claims, rl.interval⟩) := by
  unfold RateLimiter.tryClaim
  cases hl : rl.claims.lookup ip with
  | none => rfl
  | some last =>
      have hexp := hfor last hl
      dsimp only
      rw [if_neg (by omega)]

/-- The freshly recorded entry shadows any older one. -/
theorem lastClaim_cons (claims : List (String × Nat)) (interval : Nat) (ip : String) (now : Nat) :
    (⟨(ip, now) :: claims, interval⟩ : RateLimiter).lastClaim ip = some now := by
  simp [RateLimiter.lastClaim, List.lookup]

/-! ### The claims -/

/-- Claim C1 (evidence of the code bug): in main.rs, `claim_handler` invokes
the whole fetch-select-assemble-sign-submit sequence with **no** exclusive
section, so the interleaving in which two concurrent admitted claims (for
distinct identities) both fetch the node's UTXO view before either submits
is schedulable; on the view `[{outpoint 0, amount 500000000}]` with
`amount_per_claim = 100000000`, both claims then succeed and both submitted
transactions spend outpoint 0 — their input sets are *not* disjoint,
contradicting the claimed exclusivity property (which main_full.rs, holding
an `RwLock` write guard across its `send`, does enforce). -/
theorem claim_c1 :
    unlockedBothFetchFirst [⟨0, 500000000⟩] 100000000 1 2 0 =
      (.ok ⟨[0], [(100000000, 1), (399996000, 0)]⟩,
       .ok ⟨[0], [(100000000, 2), (399996000, 0)]⟩) ∧
    ¬ Tx.inputsDisjoint ⟨[0], [(100000000, 1), (399996000, 0)]⟩
        ⟨[0], [(100000000, 2), (399996000, 0)]⟩ := by
  decide

/-- Claim C2, counterexample to the claim as stated: with the single UTXO
`{outpoint 0, amount u64::MAX}` and target amount `u64::MAX`, selection
succeeds (both sides of the loop's saturating comparison clamp to
`u64::MAX`), yet in exact arithmetic the selected input sum `u64::MAX` is
strictly below `amount + fee(1) = u64::MAX + 4000`. -/
theorem claim_c2_counterexample :
    selectPhase [⟨0, U64MAX⟩] U64MAX = .ok ⟨[⟨0, U64MAX⟩], U64MAX, 4000⟩ ∧
    sumAmounts [⟨0, U64MAX⟩] < U64MAX + fee 1 := by
  decide

/-- Claim C2 (amended): if `select` succeeds, the selected inputs are a
nonempty prefix of the available list (taken in the order received), the
recorded fee is `fee` of the selection length, the sufficiency bound
`sum(inputs.amount) >= amount + fee(inputs.len())` holds whenever
`amount + fee(inputs.len()) <= u64::MAX` (the saturating comparison can
otherwise accept with only `sum >= u64::MAX`), and removing the last
selected input always breaks the bound (prefix-minimality under the given
ordering). -/
theorem claim_c2 (utxos : List Utxo) (amount : Nat) (sel : Selection)
    (h : selectPhase utxos amount = .ok sel) :
    1 ≤ sel.selected.length ∧ sel.selected.length ≤ utxos.length ∧
    sel.selected = utxos.take sel.selected.length ∧
    sel.feeSompi = fee sel.selected.length ∧
    (amount + sel.feeSompi ≤ U64MAX → amount + sel.feeSompi ≤ sumAmounts sel.selected) ∧
    sumAmounts sel.selected.dropLast < amount + fee sel.selected.dropLast.length := by
  obtain ⟨hne, hsel, hge⟩ := selectPhase_ok utxos amount sel h
  obtain ⟨j, hjle, hj1, heq, hconds⟩ := selectLoop_spec amount utxos [] 0
  rw [heq] at hsel hge
  simp only [List.nil_append] at hsel hge
  have hj : 1 ≤ j := hj1 hne
  have hlen : (utxos.take j).length = j := by
    rw [List.length_take]
    omega
  subst hsel
  dsimp only
  refine ⟨by omega, by omega, by rw [hlen], rfl, ?_, ?_⟩
  · intro hle
    rw [satFold_eq _ 0 (Nat.zero_le _)] at hge
    simp only [satAdd, U64MAX] at hge hle ⊢
    omega
  · rw [dropLast_take j utxos hjle]
    have hlen2 : (utxos.take (j - 1)).length = j - 1 := by
      rw [List.length_take]
      omega
    rw [hlen2]
    by_cases hj2 : j = 1
    · subst hj2
      simp [sumAmounts, fee, FEE_PER_INPUT_SOMPI]
    · have hc := hconds (j - 1) (by omega) (by omega)
      simp only [List.length_nil, Nat.zero_add] at hc
      rw [satFold_eq _ 0 (Nat.zero_le _)] at hc
      simp only [satAdd, U64MAX] at hc
      omega

/-- Witness for C2 at the spec's worked scenario: available UTXOs
`[{500000000}, {400000000}]`, amount `100000000`; the selector picks only
the first UTXO, with fee 4000. -/
theorem claim_c2_witness :
    selectPhase [⟨0, 500000000⟩, ⟨1, 400000000⟩] 100000000 =
      .ok ⟨[⟨0, 500000000⟩], 500000000, 4000⟩ ∧
    (1 ≤ (⟨[⟨0, 500000000⟩], 500000000, 4000⟩ : Selection).selected.length ∧
     (⟨[⟨0, 500000000⟩], 500000000, 4000⟩ : Selection).selected.length ≤
       ([⟨0, 500000000⟩, ⟨1, 400000000⟩] : List Utxo).length ∧
     (⟨[⟨0, 500000000⟩], 500000000, 4000⟩ : Selection).selected =
       ([⟨0, 500000000⟩, ⟨1, 400000000⟩] : List Utxo).take
         (⟨[⟨0, 500000000⟩], 500000000, 4000⟩ : Selection).selected.length ∧
     (⟨[⟨0, 500000000⟩], 500000000, 4000⟩ : Selection).feeSompi =
       fee (⟨[⟨0, 500000000⟩], 500000000, 4000⟩ : Selection).selected.length ∧
     (100000000 + (⟨[⟨0, 500000000⟩], 500000000, 4000⟩ : Selection).feeSompi ≤ U64MAX →
       100000000 + (⟨[⟨0, 500000000⟩], 500000000, 4000⟩ : Selection).feeSompi ≤
         sumAmounts (⟨[⟨0, 500000000⟩], 500000000, 4000⟩ : Selection).selected) ∧
     sumAmounts (⟨[⟨0, 500000000⟩], 500000000, 4000⟩ : Selection).selected.dropLast <
       100000000 + fee (⟨[⟨0, 500000000⟩], 500000000, 4000⟩ : Selection).selected.dropLast.length) :=
  ⟨by decide,
   claim_c2 [⟨0, 500000000⟩, ⟨1, 400000000⟩] 100000000
     ⟨[⟨0, 500000000⟩], 500000000, 4000⟩ (by decide)⟩

/-- Claim C10: the sufficiency decision of the selector is made with
saturating `u64` arithmetic on both sides, so modular wraparound can never
make an insufficient input set pass: whenever selection succeeds, the exact
input sum genuinely covers `amount + fee`, or else the sum is itself at the
`u64::MAX` clamp.  The `need` value reported inside the `InsufficientFunds`
error, by contrast, is the *unchecked* `u64` sum `amount + fee` and wraps
modulo 2^64: with one 5-sompi UTXO and `amount = u64::MAX` the error
reports `have 5, need 3999` even though the exact need is `u64::MAX + 4000`. -/
theorem claim_c10 :
    (∀ (utxos : List Utxo) (amount : Nat) (sel : Selection),
        selectPhase utxos amount = .ok sel →
        amount + fee sel.selected.length ≤ sumAmounts sel.selected ∨
          U64MAX ≤ sumAmounts sel.selected) ∧
    selectPhase [⟨0, 5⟩] U64MAX = .error (.insufficientFunds 5 3999) ∧
    (U64MAX + fee 1) % U64MOD ≠ U64MAX + fee 1 := by
  refine ⟨?_, by decide, by decide⟩
  intro utxos amount sel h
  obtain ⟨hne, hsel, hge⟩ := selectPhase_ok utxos amount sel h
  obtain ⟨j, hjle, hj1, heq, -⟩ := selectLoop_spec amount utxos [] 0
  rw [heq] at hsel hge
  simp only [List.nil_append] at hsel hge
  subst hsel
  dsimp only
  rw [satFold_eq _ 0 (Nat.zero_le _)] at hge
  simp only [satAdd, U64MAX] at hge ⊢
  omega

/-- Witness for C10's universally quantified part, at the one-UTXO success
scenario. -/
theorem claim_c10_witness :
    100000000 + fee (⟨[⟨0, 500000000⟩], 500000000, 4000⟩ : Selection).selected.length ≤
      sumAmounts (⟨[⟨0, 500000000⟩], 500000000, 4000⟩ : Selection).selected ∨
    U64MAX ≤ sumAmounts (⟨[⟨0, 500000000⟩], 500000000, 4000⟩ : Selection).selected :=
  claim_c10.1 [⟨0, 500000000⟩] 100000000 ⟨[⟨0, 500000000⟩], 500000000, 4000⟩ (by decide)

/-- Claim C3: `tryClaim` is a check-and-set: a recorded entry younger than
the cooldown makes it return `false` with no mutation; otherwise it records
the current time for the identity and returns `true`.  Consequently, for an
identity with no prior entry, of two `tryClaim` calls the first is admitted
and records its time, and the second returns `false` when the two calls are
separated by less than the cooldown and `true` when separated by at least
the cooldown. -/
theorem claim_c3 (rl : RateLimiter) (ip : String) :
    (∀ now last, rl.lastClaim ip = some last → now - last < rl.interval →
        rl.tryClaim ip now = (false, rl)) ∧
    (∀ now, (∀ last, rl.lastClaim ip = some last → rl.interval ≤ now - last) →
        (rl.tryClaim ip now).1 = true ∧
        ((rl.tryClaim ip now).2).lastClaim ip = some now) ∧
    (∀ t1 t2, rl.lastClaim ip = none → t1 ≤ t2 →
        (rl.tryClaim ip t1).1 = true ∧
        (t2 - t1 < rl.interval → (((rl.tryClaim ip t1).2).tryClaim ip t2).1 = false) ∧
        (rl.interval ≤ t2 - t1 → (((rl.tryClaim ip t1).2).tryClaim ip t2).1 = true)) := by
  refine ⟨fun now last hl hlt => tryClaim_recent rl ip now last hl hlt, ?_, ?_⟩
  · intro now hfor
    rw [tryClaim_grant rl ip now hfor]
    exact ⟨rfl, lastClaim_cons _ _ _ _⟩
  · intro t1 t2 hnone hle
    have h1 : rl.tryClaim ip t1 = (true, ⟨(ip, t1) :: rl.claims, rl.interval⟩) :=
      tryClaim_grant rl ip t1 (fun last hl => absurd hl (by rw [hnone]; simp))
    rw [h1]
    refine ⟨rfl, ?_, ?_⟩
    · intro hcase
      rw [tryClaim_recent _ ip t2 t1 (lastClaim_cons _ _ _ _) hcase]
    · intro hcase
      have hadm : (⟨(ip, t1) :: rl.claims, rl.interval⟩ : RateLimiter).tryClaim ip t2 =
          (true, ⟨(ip, t2) :: (ip, t1) :: rl.claims, rl.interval⟩) := by
        apply tryClaim_grant
        intro last hl
        rw [lastClaim_cons] at hl
        have h2 := Option.some.inj hl
        subst h2
        dsimp only
        exact hcase
      rw [hadm]

/-- Witness for C3 with the spec's scenario identity and a one-hour cooldown:
a recorded claim at t=0 refuses t=1800 unchanged; a fresh identity is
admitted and recorded; from a fresh state, calls at t=0 and t=1800 have the
second refused, and calls at t=0 and t=3601 have the second admitted. -/
theorem claim_c3_witness :
    (⟨[("203.0.113.5", 0)], 3600⟩ : RateLimiter).tryClaim "203.0.113.5" 1800 =
      (false, ⟨[("203.0.113.5", 0)], 3600⟩) ∧
    ((⟨[], 3600⟩ : RateLimiter).tryClaim "203.0.113.5" 5).1 = true ∧
    (((⟨[], 3600⟩ : RateLimiter).tryClaim "203.0.113.5" 5).2).lastClaim "203.0.113.5" = some 5 ∧
    ((⟨[], 3600⟩ : RateLimiter).tryClaim "203.0.113.5" 0).1 = true ∧
    ((((⟨[], 3600⟩ : RateLimiter).tryClaim "203.0.113.5" 0).2).tryClaim "203.0.113.5" 1800).1 = false ∧
    ((((⟨[], 3600⟩ : RateLimiter).tryClaim "203.0.113.5" 0).2).tryClaim "203.0.113.5" 3601).1 = true := by
  refine ⟨(claim_c3 ⟨[("203.0.113.5", 0)], 3600⟩ "203.0.113.5").1 1800 0 (by decide) (by decide),
    ((claim_c3 ⟨[], 3600⟩ "203.0.113.5").2.1 5 (fun last hl => absurd hl (by simp [RateLimiter.lastClaim]))).1,
    ((claim_c3 ⟨[], 3600⟩ "203.0.113.5").2.1 5 (fun last hl => absurd hl (by simp [RateLimiter.lastClaim]))).2,
    ((claim_c3 ⟨[], 3600⟩ "203.0.113.5").2.2 0 1800 rfl (by decide)).1,
    ((claim_c3 ⟨[], 3600⟩ "203.0.113.5").2.2 0 1800 rfl (by decide)).2.1 (by decide),
    ((claim_c3 ⟨[], 3600⟩ "203.0.113.5").2.2 0 3601 rfl (by decide)).2.2 (by decide)⟩

/-- Claim C4: under the caller-validated sufficiency bound, the assembler
emits the destination output of `amount` first; it emits a change output of
the residual `totalIn - amount - fee` back to the faucet address second
exactly when the residual is at least `DUST_SOMPI`; a residual below the
dust threshold yields exactly one output (the residual is absorbed as extra
fee); and the computed change is always `0` or at least `DUST_SOMPI`. -/
theorem claim_c4 (sel : Selection) (amount destAddr faucetAddr : Nat)
    (hsuff : amount + sel.feeSompi ≤ sel.totalIn) :
    (assemble sel amount destAddr faucetAddr).outputs.head? = some (amount, destAddr) ∧
    (DUST_SOMPI ≤ sel.totalIn - amount - sel.feeSompi →
      (assemble sel amount destAddr faucetAddr).outputs =
        [(amount, destAddr), (sel.totalIn - amount - sel.feeSompi, faucetAddr)]) ∧
    (sel.totalIn - amount - sel.feeSompi < DUST_SOMPI →
      (assemble sel amount destAddr faucetAddr).outputs = [(amount, destAddr)]) ∧
    (changeAmount sel.totalIn amount sel.feeSompi = 0 ∨
      DUST_SOMPI ≤ changeAmount sel.totalIn amount sel.feeSompi) := by
  have hD : DUST_SOMPI = 1000 := rfl
  refine ⟨rfl, ?_, ?_, ?_⟩
  · intro hdust
    have hch : changeAmount sel.totalIn amount sel.feeSompi =
        sel.totalIn - amount - sel.feeSompi := by
      rw [changeAmount, if_neg (by omega)]
    simp only [assemble, hch]
    rw [if_pos (by omega)]
  · intro hlt
    have hch : changeAmount sel.totalIn amount sel.feeSompi = 0 := by
      rw [changeAmount]
      split_ifs with h
      · rfl
      · omega
    simp only [assemble, hch]
    rw [if_neg (by omega)]
  · rw [changeAmount]
    split_ifs with h
    · exact Or.inl rfl
    · omega

/-- Witness for C4 at the spec's worked scenario: one selected 500000000-sompi
input, amount 100000000, fee 4000, change 399996000 (above dust), so the
assembled transaction has the destination output first and the change output
second. -/
theorem claim_c4_witness :
    100000000 + 4000 ≤ 500000000 ∧
    ((assemble ⟨[⟨0, 500000000⟩], 500000000, 4000⟩ 100000000 1 0).outputs.head? =
        some (100000000, 1) ∧
     (DUST_SOMPI ≤ 500000000 - 100000000 - 4000 →
       (assemble ⟨[⟨0, 500000000⟩], 500000000, 4000⟩ 100000000 1 0).outputs =
         [(100000000, 1), (500000000 - 100000000 - 4000, 0)]) ∧
     (500000000 - 100000000 - 4000 < DUST_SOMPI →
       (assemble ⟨[⟨0, 500000000⟩], 500000000, 4000⟩ 100000000 1 0).outputs =
         [(100000000, 1)]) ∧
     (changeAmount 500000000 100000000 4000 = 0 ∨
       DUST_SOMPI ≤ changeAmount 500000000 100000000 4000)) :=
  ⟨by decide, claim_c4 ⟨[⟨0, 500000000⟩], 500000000, 4000⟩ 100000000 1 0 (by decide)⟩

/-- Claim C5, counterexample to the claim as stated: on an empty UTXO set the
code bails out at main.rs line 227 with the dedicated no-UTXOs error, not
with `InsufficientFunds{have: 0, need: amount + 2000}`. -/
theorem claim_c5_counterexample :
    selectPhase [] 100000000 = .error .noUtxos ∧
    selectPhase [] 100000000 ≠ .error (.insufficientFunds 0 100002000) := by
  decide

/-- Claim C5 (amended): for every requested amount, an empty available UTXO
set makes the spend path fail with the dedicated no-UTXOs bail-out (before
the selection loop and its `InsufficientFunds{have: 0, need: amount + 2000}`
shape can be reached). -/
theorem claim_c5 (amount : Nat) : selectPhase [] amount = .error .noUtxos := rfl

/-- Claim C6: the fee model is the pure function
`fee(n) = (n + 1) * feePerInput` with `feePerInput = 2000` sompi, total on
all input counts (no error conditions), and strictly monotonically
increasing in the input count. -/
theorem claim_c6 :
    (∀ n, fee n = (n + 1) * FEE_PER_INPUT_SOMPI ∧ FEE_PER_INPUT_SOMPI = 2000) ∧
    ∀ m n, m < n → fee m < fee n := by
  refine ⟨fun n => ⟨rfl, rfl⟩, fun m n h => ?_⟩
  simp only [fee, FEE_PER_INPUT_SOMPI]
  omega

/-- Witness for C6's monotonicity at concrete input counts. -/
theorem claim_c6_witness :
    (fee 3 = (3 + 1) * FEE_PER_INPUT_SOMPI ∧ FEE_PER_INPUT_SOMPI = 2000) ∧ fee 1 < fee 2 :=
  ⟨claim_c6.1 3, claim_c6.2 1 2 (by decide)⟩

/-- Claim C7: a claim whose destination address fails to parse terminates
with HTTP 400 before anything else happens: the rate-limiter state is
returned untouched and the wallet spend path is never invoked. -/
theorem claim_c7 (rl : RateLimiter) (ip : String) (now : Nat)
    (spendResult : Except FaucetError Nat) (amountPerClaim intervalSeconds : Nat) :
    claimHandler none rl ip now spendResult amountPerClaim intervalSeconds =
      (.badRequest, rl, false) ∧
    httpStatus (claimHandler none rl ip now spendResult amountPerClaim intervalSeconds).1 = 400 :=
  ⟨rfl, rfl⟩

/-- Claim C8: the HTTP status mapping of `claim_handler`: invalid address →
400; rate-limited identity → 429; any spend-path failure (no UTXOs,
insufficient funds, signing, submission, node) → 500; success returns the
transaction identifier, the amount, and the next-claim seconds. -/
theorem claim_c8 :
    (∀ (rl : RateLimiter) (ip : String) (now : Nat) (spendResult : Except FaucetError Nat)
        (amt secs : Nat),
        httpStatus (claimHandler none rl ip now spendResult amt secs).1 = 400) ∧
    (∀ (a : Nat) (rl : RateLimiter) (ip : String) (now amt secs : Nat)
        (spendResult : Except FaucetError Nat),
        (rl.tryClaim ip now).1 = false →
        httpStatus (claimHandler (some a) rl ip now spendResult amt secs).1 = 429) ∧
    (∀ (a : Nat) (rl : RateLimiter) (ip : String) (now amt secs : Nat) (e : FaucetError),
        (rl.tryClaim ip now).1 = true →
        httpStatus (claimHandler (some a) rl ip now (.error e) amt secs).1 = 500) ∧
    (∀ (a : Nat) (rl : RateLimiter) (ip : String) (now amt secs txId : Nat),
        (rl.tryClaim ip now).1 = true →
        (claimHandler (some a) rl ip now (.ok txId) amt secs).1 =
          .accepted txId amt secs) := by
  refine ⟨fun rl ip now s amt secs => rfl, ?_, ?_, ?_⟩
  · intro a rl ip now amt secs s h
    simp [claimHandler, h, httpStatus]
  · intro a rl ip now amt secs e h
    simp [claimHandler, h, httpStatus]
  · intro a rl ip now amt secs txId h
    simp [claimHandler, h]

/-- Witness for C8 covering all four status branches at concrete requests. -/
theorem claim_c8_witness :
    httpStatus (claimHandler none ⟨[], 3600⟩ "203.0.113.5" 0 (.ok 7) 100000000 3600).1 = 400 ∧
    httpStatus (claimHandler (some 1) ⟨[("203.0.113.5", 0)], 3600⟩ "203.0.113.5" 1800
      (.ok 7) 100000000 3600).1 = 429 ∧
    httpStatus (claimHandler (some 1) ⟨[], 3600⟩ "203.0.113.5" 0
      (.error (.insufficientFunds 0 100002000)) 100000000 3600).1 = 500 ∧
    (claimHandler (some 1) ⟨[], 3600⟩ "203.0.113.5" 0 (.ok 7) 100000000 3600).1 =
      .accepted 7 100000000 3600 :=
  ⟨claim_c8.1 ⟨[], 3600⟩ "203.0.113.5" 0 (.ok 7) 100000000 3600,
   claim_c8.2.1 1 ⟨[("203.0.113.5", 0)], 3600⟩ "203.0.113.5" 1800 100000000 3600 (.ok 7) (by decide),
   claim_c8.2.2.1 1 ⟨[], 3600⟩ "203.0.113.5" 0 100000000 3600 (.insufficientFunds 0 100002000) (by decide),
   claim_c8.2.2.2 1 ⟨[], 3600⟩ "203.0.113.5" 0 100000000 3600 7 (by decide)⟩

/-- Claim C9: once `tryClaim` admits an identity, the recorded timestamp is
never rolled back: when the spend path then fails, `claim_handler` returns
500 with the admitted timestamp still recorded, so a retry within the
cooldown is refused even though the identity received no funds. -/
theorem claim_c9 (rl : RateLimiter) (a : Nat) (ip : String) (t1 t2 : Nat) (e : FaucetError)
    (amt secs : Nat)
    (hgrant : (rl.tryClaim ip t1).1 = true)
    (hlt : t2 - t1 < rl.interval) :
    (claimHandler (some a) rl ip t1 (.error e) amt secs).1 = .internalError ∧
    ((claimHandler (some a) rl ip t1 (.error e) amt secs).2.1).lastClaim ip = some t1 ∧
    ((((claimHandler (some a) rl ip t1 (.error e) amt secs).2.1)).tryClaim ip t2).1 = false := by
  have hstate := tryClaim_true_state rl ip t1 hgrant
  have hhandler : claimHandler (some a) rl ip t1 (.error e) amt secs =
      (.internalError, (rl.tryClaim ip t1).2, true) := by
    simp [claimHandler, hgrant]
  rw [hhandler]
  dsimp only
  rw [hstate]
  refine ⟨rfl, lastClaim_cons _ _ _ _, ?_⟩
  rw [tryClaim_recent _ ip t2 t1 (lastClaim_cons _ _ _ _) hlt]

/-- Witness for C9: a fresh identity admitted at t=0 whose spend fails with a
signing failure still has t=0 recorded and is refused at t=1800 under a
3600-second cooldown. -/
theorem claim_c9_witness :
    (claimHandler (some 9) ⟨[], 3600⟩ "203.0.113.5" 0 (.error .signingFailure)
        100000000 3600).1 = .internalError ∧
    ((claimHandler (some 9) ⟨[], 3600⟩ "203.0.113.5" 0 (.error .signingFailure)
        100000000 3600).2.1).lastClaim "203.0.113.5" = some 0 ∧
    (((claimHandler (some 9) ⟨[], 3600⟩ "203.0.113.5" 0 (.error .signingFailure)
        100000000 3600).2.1).tryClaim "203.0.113.5" 1800).1 = false :=
  claim_c9 ⟨[], 3600⟩ 9 "203.0.113.5" 0 1800 .signingFailure 100000000 3600
    (by decide) (by decide)

end Faucet
